import Mathlib

/-!
Verification of the button-buddy goal-to-target resolution core.

The definitions below are a shallow embedding of the JavaScript sources:
* `src/extension/content.js` — local scorer (`scoreCandidate`, `preRank`);
* `src/server/index.js` — the `/rank` endpoint: result construction, timeout
  fallback, defensive JSON parsing, page-signature cache key, rank cache,
  site-hint scoring (`scoreUrl`) and the `/site-hints` feature gate;
* `src/proxy/server.js` — the `/ask` endpoint: response sanitation.

JavaScript-level conventions used throughout:
* JS numbers are modelled as `JNum` (a finite rational or NaN); the float
  arithmetic performed by the sources stays on halves and hundredths, far from
  any double-rounding boundary, so exact rational arithmetic is faithful.
* String fields that can be absent (`undefined`) are modelled as `""` whenever
  the source only reads them through `x || ''` style defaulting, under which
  `undefined` and `""` behave identically.
* `.toLowerCase()` is modelled by `jsToLower` (ASCII case mapping; every string
  any theorem below instantiates is ASCII).  The `.normalize('NFD')` plus
  diacritic-stripping step of `normalizeToken`/`normalize` is the identity on
  ASCII strings and is not modelled further.
-/

/-- A JavaScript number: either a finite value (exact rational) or NaN. -/
inductive JNum where
  | nan
  | fin (q : ℚ)
deriving DecidableEq

/-- A JSON-derived JavaScript value, as far as the sources inspect one. -/
inductive JVal where
  | jnum (q : ℚ)
  | jnan
  | jstr (s : String)
  | jbool (b : Bool)
  | jnull
  | jundef
deriving DecidableEq

/-- JS truthiness: NaN, `""`, `false`, `null`, `undefined` and `0` are falsy. -/
def JVal.truthy : JVal → Bool
  | .jnum q => q != 0
  | .jnan => false
  | .jstr s => s != ""
  | .jbool b => b
  | .jnull => false
  | .jundef => false

/-- The value of `a || b` in JS, for the modelled values. -/
def jsOr (a b : JVal) : JVal := if a.truthy then a else b

/-- JS `Number(...)` coercion on the modelled values.  String parsing is
modelled for decimal natural numerals only; no statement below applies it to
any other non-empty string (for a non-numeric string it yields NaN, as JS
does). -/
def jsNumber : JVal → JNum
  | .jnum q => .fin q
  | .jnan => .nan
  | .jbool b => .fin (if b then 1 else 0)
  | .jnull => .fin 0
  | .jundef => .nan
  | .jstr s =>
    if s = "" then .fin 0 else
      match s.toNat? with
      | some n => .fin (n : ℚ)
      | none => .nan

/-- JS `Math.min` on two numbers (NaN propagates). -/
def jsMin : JNum → JNum → JNum
  | .nan, _ => .nan
  | .fin _, .nan => .nan
  | .fin a, .fin b => .fin (min a b)

/-- JS `Math.max` on two numbers (NaN propagates). -/
def jsMax : JNum → JNum → JNum
  | .nan, _ => .nan
  | .fin _, .nan => .nan
  | .fin a, .fin b => .fin (max a b)

/-- JS `<` against a numeric literal: false when the left side is NaN. -/
def JNum.ltQ : JNum → ℚ → Bool
  | .nan, _ => false
  | .fin a, q => decide (a < q)

/-- JS `>` against a numeric literal: false when the left side is NaN. -/
def JNum.gtQ : JNum → ℚ → Bool
  | .nan, _ => false
  | .fin a, q => decide (q < a)

/-- JS `Number.isFinite` on the modelled numbers. -/
def JNum.isFinite : JNum → Bool
  | .nan => false
  | .fin _ => true

/-- ASCII lower-casing, modelling JS `toLowerCase` on the ASCII range. -/
def lowerAscii (c : Char) : Char :=
  if 'A' ≤ c ∧ c ≤ 'Z' then Char.ofNat (c.toNat + 32) else c

/-- JS `s.toLowerCase()` (ASCII range). -/
def jsToLower (s : String) : String := String.mk (s.data.map lowerAscii)

/-- JS `s.trim()` (ASCII whitespace). -/
def jsTrim (s : String) : String :=
  String.mk (((s.data.dropWhile Char.isWhitespace).reverse.dropWhile Char.isWhitespace).reverse)

/-- Does `hay` start with `needle` (on character lists)? -/
def startsWithChars : List Char → List Char → Bool
  | [], _ => true
  | _ :: _, [] => false
  | a :: as, b :: bs => a == b && startsWithChars as bs

/-- Does `needle` occur contiguously inside the second list?  Models JS
`String.includes` and the keyword-alternation regexps of the sources. -/
def occursIn (needle : List Char) : List Char → Bool
  | [] => needle.isEmpty
  | b :: bs => startsWithChars needle (b :: bs) || occursIn needle bs

/-- Substring test on strings: `strContains hay needle`. -/
def strContains (hay needle : String) : Bool := occursIn needle.data hay.data

/-- Split on single whitespace characters.  Runs of whitespace produce empty
fragments, which every caller filters out, so the composite models JS
`split(/\s+/).filter(Boolean)`. -/
def splitWsAux : List Char → List Char → List String
  | [], acc => [String.mk acc.reverse]
  | c :: cs, acc =>
    if c.isWhitespace then String.mk acc.reverse :: splitWsAux cs []
    else splitWsAux cs (c :: acc)

/-- Split a string at whitespace characters. -/
def splitWs (s : String) : List String := splitWsAux s.data []

/-! ## Local scorer (`src/extension/content.js`) -/

/-- One interactable element snapshot, restricted to the fields that
`scoreCandidate` in `src/extension/content.js` reads, plus the stable id. -/
structure Candidate where
  id : String
  accName : String
  text : String
  labels : List String
  ariaLabel : String
  ancestorTextSample : String
  controlType : String
  clickable : Bool
  disabled : Bool
  boundsX : ℚ
  boundsY : ℚ
  boundsW : ℚ
  boundsH : ℚ
deriving DecidableEq

/-- content.js `normalize` (lines 125-131): lower-case and trim; the NFD
diacritic stripping in between is the identity on ASCII input.  (Named
`normalizeText` here because Mathlib already claims `normalize`.) -/
def normalizeText (s : String) : String := jsTrim (jsToLower s)

/-- content.js `scoreCandidate` (lines 305-348). -/
def scoreCandidate (goalNorm : String) (c : Candidate) : ℚ :=
  let keywords := (splitWs goalNorm).filter (fun k => k != "")
  let hayAcc := normalizeText c.accName
  let hayText := normalizeText c.text
  let hayLabels := normalizeText (String.intercalate " " c.labels)
  let hayAria := normalizeText c.ariaLabel
  let hayAnc := normalizeText c.ancestorTextSample
  let score1 : ℚ :=
    if goalNorm != "" && (strContains hayAcc goalNorm || strContains hayText goalNorm)
    then 3 else 0
  let hitsAndScore := keywords.foldl (fun (acc : ℚ × ℕ) kw =>
      if strContains hayAcc kw || strContains hayText kw ||
         strContains hayLabels kw || strContains hayAria kw
      then (acc.1 + 2, acc.2 + 1)
      else if strContains hayAnc kw then (acc.1 + 1, acc.2) else acc)
    (score1, 0)
  let score2 := hitsAndScore.1
  let keywordHits := hitsAndScore.2
  let score3 :=
    if strContains goalNorm "password" || strContains goalNorm "security" then
      let a := if strContains hayAnc "password" || strContains hayAnc "security"
               then score2 + 2 else score2
      if c.controlType == "password" || c.controlType == "submit" then a + 1 else a
    else score2
  let score4 :=
    if strContains goalNorm "email" || strContains goalNorm "name" then
      let a := if (c.controlType == "email" || c.controlType == "text") && (keywordHits != 0)
               then score3 + 2 else score3
      if c.labels.length != 0 then a + 1 else a
    else score3
  let score5 := if c.clickable then score4 + 1 else score4
  let score6 := if c.disabled then score5 - 3 else score5
  let area := c.boundsW * c.boundsH
  if 200 < area ∧ area < 200000 then score6 + 0.5 else score6

/-- A candidate paired with its local score (the `{ c, score }` pairs built by
`preRank`). -/
structure Scored where
  c : Candidate
  score : ℚ
deriving DecidableEq

/-- The scored list before sorting. -/
def scoredOf (goal : String) (cs : List Candidate) : List Scored :=
  cs.map (fun c => { c := c, score := scoreCandidate (normalizeText goal) c })

/-- Insert into an already sorted list, placing the new element before every
element of smaller-or-equal score that was processed after it.  Together with
`sortScored` this is the unique stable descending-by-score permutation, hence
extensionally the JS `scored.sort((a, b) => b.score - a.score)` call (JS array
sort is stable). -/
def insertScored (x : Scored) : List Scored → List Scored
  | [] => [x]
  | y :: ys => if y.score > x.score then y :: insertScored x ys else x :: y :: ys

/-- Stable descending sort by score. -/
def sortScored : List Scored → List Scored
  | [] => []
  | x :: xs => insertScored x (sortScored xs)

/-- Result record of `preRank`. -/
structure PreRankResult where
  scoredSorted : List Scored
  top : List Candidate
  bestLocal : Option Candidate
  bestLocalScore : ℚ
deriving DecidableEq

/-- content.js `preRank` (lines 350-360): score every candidate, sort
descending by score (stable), keep the top 50 for the server.  The in-place
reset of `confidenceHints` while mapping does not affect any modelled field. -/
def preRank (goal : String) (cs : List Candidate) : PreRankResult :=
  let scored := scoredOf goal cs
  let sorted := sortScored scored
  { scoredSorted := sorted
    top := (sorted.take 50).map (fun s => s.c)
    bestLocal := sorted.head?.map (fun s => s.c)
    bestLocalScore := match sorted.head? with | some s => s.score | none => 0 }

/-! ## Ranking endpoint (`src/server/index.js`, current revision, lines 278-880) -/

/-- The compact candidate projection sent to the oracle (index.js lines
408-429).  `confidenceHints` is an opaque blob the server never inspects and is
omitted.  String fields default to `""` for absent values (see the header). -/
structure Compact where
  id : String
  tag : String
  role : String
  type : String
  text : String
  accName : String
  ariaLabel : String
  nameAttr : String
  placeholder : String
  labels : Option (List String)
  href : String
  classes : List String
  visible : Bool
  clickable : Bool
  disabled : Bool
  domPath : String
  ancestorTextSample : String
deriving DecidableEq

/-- The parsed oracle reply, restricted to the fields `/rank` inspects. -/
structure RankParsed where
  elementId : Option String
  reason : Option String
  confidence : JVal
  alternates : Option (List String)
deriving DecidableEq

/-- The `/rank` success payload (`result` plus `llm_ms`, index.js lines
542-549). -/
structure RankResult where
  elementId : Option String
  reason : String
  confidence : JNum
  alternates : Option (List String)
  llm_ms : ℤ
deriving DecidableEq

/-- An HTTP reply: a JSON body with status 200, or an error status with the
constant part of its payload. -/
inductive HttpResult (β : Type) where
  | ok (body : β)
  | err (status : ℕ) (msg : String)
deriving DecidableEq

/-- index.js line 294: the hard timeout budget raced against the oracle. -/
def LLM_TIMEOUT_MS : ℕ := 8000

/-- index.js line 509: the keywords of the timeout-fallback regex. -/
def TIMEOUT_KEYWORDS : List String :=
  ["email", "subscription", "billing", "settings", "account", "password"]

/-- index.js lines 509-511: the case-insensitive regex test applied to
`(c.text || '') + ' ' + (c.accName || '') + ' ' + (c.ariaLabel || '')`. -/
def timeoutKwMatch (c : Compact) : Bool :=
  TIMEOUT_KEYWORDS.any (fun k =>
    strContains (jsToLower (c.text ++ " " ++ c.accName ++ " " ++ c.ariaLabel)) k)

/-- index.js lines 508-519: the fallback payload synthesized when the oracle
race is lost: `pick = compact.find(...) || compact[0]`, then
`elementId: pick?.id || null`, fixed reason and confidence 35. -/
def rankTimeoutFallback (compact : List Compact) (llm_ms : ℤ) : RankResult :=
  let pick := match compact.find? timeoutKwMatch with
    | some c => some c
    | none => compact.head?
  { elementId := match pick with
      | some c => if c.id = "" then none else some c.id
      | none => none
    reason := "Timed out; offering best local guess"
    confidence := .fin 35
    alternates := none
    llm_ms := llm_ms }

/-- What the `/rank` catch block can receive. -/
inductive RankErr where
  | timeout
  | other (detail : String)
deriving DecidableEq

/-- index.js lines 503-526: the catch block of the oracle call.  A timeout is
answered 200 with the fallback payload; any other failure becomes a 502. -/
def rankOnCatch (e : RankErr) (compact : List Compact) (llm_ms : ℤ) :
    HttpResult RankResult :=
  match e with
  | .timeout => .ok (rankTimeoutFallback compact llm_ms)
  | .other _ => .err 502 "LLM error"

/-- The opening curly bracket character. -/
def lbrace : Char := Char.ofNat 123

/-- The closing curly bracket character. -/
def rbrace : Char := Char.ofNat 125

/-- The greedy bracket-extraction regex used by both servers: the span from the
first opening bracket to the last closing bracket after it, if any. -/
def braceMatch (s : String) : Option String :=
  match s.data.findIdx? (fun c => c == lbrace),
        (s.data.reverse.findIdx? (fun c => c == rbrace)).map
          (fun j => s.data.length - 1 - j) with
  | some i, some j =>
    if i < j then some (String.mk ((s.data.drop i).take (j - i + 1))) else none
  | _, _ => none

/-- Outcome of the defensive parse block: a parsed object, a null result (no
JSON and no bracketed fragment), or an exception escaping to the outer handler
(a fragment was found but `JSON.parse` throws on it, inside the catch block). -/
inductive ParseOutcome (π : Type) where
  | parsed (p : π)
  | noJson
  | thrown
deriving DecidableEq

/-- index.js lines 530-536 and proxy lines 268-279 share this shape.
`JSON.parse` is abstracted by `jsonOf`: the parse result on a given raw text,
`none` when `JSON.parse` throws on that text. -/
def parseDefensive {π : Type} (jsonOf : String → Option π) (text : String) :
    ParseOutcome π :=
  match jsonOf text with
  | some p => .parsed p
  | none =>
    match braceMatch text with
    | some frag =>
      match jsonOf frag with
      | some p => .parsed p
      | none => .thrown
    | none => .noJson

/-- Truthiness of an optional string field. -/
def strTruthy : Option String → Bool
  | some s => s != ""
  | none => false

/-- index.js lines 542-549: the success payload built from a parsed reply.
`elementId` is copied verbatim; `confidence` passes any number through
(including values far outside [0,1]) and defaults to 50 otherwise; alternates
are truncated to 3.  No field is validated against the sent candidates. -/
def rankResultOf (p : RankParsed) (llm_ms : ℤ) : RankResult :=
  { elementId := p.elementId
    reason := match p.reason with
      | some r => if r = "" then "Chosen as best match to goal" else r
      | none => "Chosen as best match to goal"
    confidence := match p.confidence with
      | .jnum q => .fin q
      | .jnan => .nan
      | _ => .fin 50
    alternates := p.alternates.map (fun l => l.take 3)
    llm_ms := llm_ms }

/-- index.js lines 528-551: the response sent once oracle text was obtained.
`compact` is a parameter only to document that the success path never consults
the sent candidate set. -/
def rankOnParsed (_compact : List Compact) (po : ParseOutcome RankParsed)
    (llm_ms : ℤ) : HttpResult RankResult :=
  match po with
  | .thrown => .err 500 "Internal error"
  | .noJson => .err 502 "Bad LLM response"
  | .parsed p =>
    if strTruthy p.elementId then .ok (rankResultOf p llm_ms)
    else .err 502 "Bad LLM response"

/-- The `/rank` success-path behaviour on a raw oracle text. -/
def rankRespondText (jsonOf : String → Option RankParsed) (compact : List Compact)
    (text : String) (llm_ms : ℤ) : HttpResult RankResult :=
  rankOnParsed compact (parseDefensive jsonOf text) llm_ms

/-- The behaviour of `JSON.parse` on raw texts that are not valid JSON; used to
instantiate `jsonOf` in closed statements whose texts are all non-JSON. -/
def jsParseFailsAll {π : Type} : String → Option π := fun _ => none

/-! ### Page signature and rank cache (`src/server/index.js` lines 296-363) -/

/-- index.js `normalizeToken` (lines 301-307): textually the same operation as
the content-script normalize. -/
def normalizeToken (s : String) : String := jsTrim (jsToLower s)

/-- One FNV-1a step.  The shift/add form of `tinyHash`
(`h + (h<<1) + (h<<4) + (h<<7) + (h<<8) + (h<<24)`, each shift a 32-bit
operation, then `>>> 0`) is congruent mod 2^32 to multiplying by the FNV prime
16777619 = 1 + 2 + 16 + 128 + 256 + 16777216. -/
def tinyHashStep (h c : ℕ) : ℕ := (Nat.xor h c) * 16777619 % 2 ^ 32

/-- index.js `tinyHash` (lines 309-318), numeric part: FNV-1a over the UTF-16
code units of the string (every string hashed below is in the BMP, where
`charCodeAt` equals the code point). -/
def tinyHashNum (s : String) : ℕ :=
  s.data.foldl (fun h ch => tinyHashStep h ch.toNat) 0x811c9dc5

/-- Digits for base-36 printing: 0-9 then a-z, as JS `toString(36)`. -/
def base36Char (n : ℕ) : Char :=
  if n < 10 then Char.ofNat (48 + n) else Char.ofNat (87 + n)

/-- Base-36 digit accumulation, most significant digit first.  Eight digits of
fuel are enough for any 32-bit value (36^7 > 2^32). -/
def toBase36Go : ℕ → ℕ → List Char → List Char
  | 0, _, acc => acc
  | fuel + 1, n, acc =>
    if n = 0 then acc else toBase36Go fuel (n / 36) (base36Char (n % 36) :: acc)

/-- JS `n.toString(36)` for 32-bit values. -/
def toBase36 (n : ℕ) : String :=
  if n = 0 then "0" else String.mk (toBase36Go 8 n [])

/-- index.js `tinyHash` (lines 309-318). -/
def tinyHash (s : String) : String := toBase36 (tinyHashNum s)

/-- The tokens one compact candidate contributes to the page signature
(index.js lines 323-331); each push is guarded by truthiness of the raw
field. -/
def candTokens (c : Compact) : List String :=
  (if c.accName ≠ "" then [normalizeToken c.accName] else [])
    ++ (if c.text ≠ "" then [normalizeToken c.text] else [])
    ++ (match c.labels with | some ls => ls.map normalizeToken | none => [])
    ++ (if c.role ≠ "" then [normalizeToken c.role] else [])
    ++ (if c.tag ≠ "" then [normalizeToken c.tag] else [])

/-- First-occurrence deduplication: the order JS `Array.from(new Set(l))`
produces. -/
def firstDedup : List String → List String
  | [] => []
  | x :: xs => x :: firstDedup (xs.filter (fun y => y != x))
termination_by l => l.length
decreasing_by exact Nat.lt_succ_of_le (List.length_filter_le _ _)

/-- index.js `buildPageSignatureFromCandidates` (lines 320-334): collect the
tokens of up to 50 candidates in order, drop empties, deduplicate keeping first
occurrences, cap at 50 tokens, join and hash. -/
def buildPageSignatureFromCandidates (cs : List Compact) : String :=
  let tokens := ((cs.take 50).map candTokens).flatten
  let deduped := (firstDedup (tokens.filter (fun t => t != ""))).take 50
  tinyHash (String.intercalate "|" deduped)

/-- An entry of the `/rank` cache: write timestamp plus cached payload. -/
structure RankEntry (α : Type) where
  timestamp : ℤ
  data : α
deriving DecidableEq

/-- A JS `Map` with string keys, as a key-value list in insertion order. -/
abbrev JsMap (α : Type) := List (String × α)

/-- JS `Map.has`. -/
def mapHas {α : Type} (m : JsMap α) (k : String) : Bool := m.any (fun p => p.1 == k)

/-- JS `Map.get`. -/
def mapGet {α : Type} (m : JsMap α) (k : String) : Option α :=
  (m.find? (fun p => p.1 == k)).map Prod.snd

/-- JS `Map.delete`. -/
def mapDelete {α : Type} (m : JsMap α) (k : String) : JsMap α :=
  m.filter (fun p => p.1 != k)

/-- JS `Map.set`: overwrite in place when the key exists (keeping its position
in insertion order), else append at the back. -/
def mapSet {α : Type} (m : JsMap α) (k : String) (v : α) : JsMap α :=
  if mapHas m k then m.map (fun p => if p.1 == k then (k, v) else p)
  else m ++ [(k, v)]

/-- index.js line 297. -/
def RANK_CACHE_TTL_MS : ℤ := 60 * 1000

/-- index.js line 298. -/
def RANK_CACHE_MAX_ENTRIES : ℕ := 500

/-- index.js `getRankCache` (lines 336-347), returning the served payload (if
any) together with the cache state after the read: an expired entry is deleted;
a live one is deleted and re-inserted at the back (LRU refresh). -/
def getRankCache {α : Type} (now : ℤ) (key : String) (m : JsMap (RankEntry α)) :
    Option α × JsMap (RankEntry α) :=
  match mapGet m key with
  | none => (none, m)
  | some ent =>
    if RANK_CACHE_TTL_MS < now - ent.timestamp then (none, mapDelete m key)
    else (some ent.data, mapSet (mapDelete m key) key ent)

/-- The expiry sweep inside `setRankCache` (deleting while iterating a JS Map
visits every entry once, so it equals a filter; the repeated `Date.now()` reads
are modelled as the single instant `now`). -/
def sweepExpired {α : Type} (now : ℤ) (m : JsMap (RankEntry α)) :
    JsMap (RankEntry α) :=
  m.filter (fun p => decide (now - p.2.timestamp ≤ RANK_CACHE_TTL_MS))

/-- The loop `while (size > MAX) delete oldest`, with explicit fuel; each
iteration deletes the first key, so fuel `m.length` is enough for the caller. -/
def evictLoop {α : Type} : ℕ → JsMap (RankEntry α) → JsMap (RankEntry α)
  | 0, m => m
  | fuel + 1, m =>
    if RANK_CACHE_MAX_ENTRIES < m.length then
      match m with
      | [] => []
      | e :: rest => evictLoop fuel (mapDelete (e :: rest) e.1)
    else m

/-- index.js `setRankCache` (lines 349-363): insert, sweep expired entries,
then evict from the front while over capacity. -/
def setRankCache {α : Type} (now : ℤ) (key : String) (d : α)
    (m : JsMap (RankEntry α)) : JsMap (RankEntry α) :=
  let m1 := mapSet m key { timestamp := now, data := d }
  let m2 := sweepExpired now m1
  evictLoop m2.length m2

/-! ## Suggestion endpoint (`src/proxy/server.js`, current revision, lines 92-318) -/

/-- One element of the page summary posted to `/ask`, restricted to the fields
the sanitation code reads. -/
structure PageElement where
  text : String
  ariaLabel : String
  name : String
  selector : Option String
deriving DecidableEq

/-- The parsed oracle reply as `/ask` inspects it.  A non-string truthy
`selector` would miss the selector map exactly as an unknown string does, and
`parsed.selector || null` nulls every falsy value, so `Option String` is
faithful for every observable behaviour. -/
structure AskParsed where
  action_label : Option String
  selector : Option String
  confidence : JVal
  explanation : Option String
deriving DecidableEq

/-- The sanitized `/ask` reply body. -/
structure AskOut where
  action_label : String
  selector : Option String
  confidence : JNum
  explanation : String
deriving DecidableEq

/-- proxy lines 240-242: the elements eligible for validation,
`(page.elements || []).slice(0, 200).filter(el => el && el.selector)`. -/
def allowedElements (elements : List PageElement) : List PageElement :=
  (elements.take 200).filter (fun el => strTruthy el.selector)

/-- proxy line 243: `new Map(allowedElements.map(el => [el.selector, el]))`
looked up at a selector; with duplicate selectors the later element wins, as in
a JS Map built from pairs. -/
def lookupSelector (els : List PageElement) (s : String) : Option PageElement :=
  els.foldl (fun acc el => if el.selector == some s then some el else acc) none

/-- The value of `x || d` for an optional string against a string literal. -/
def strOr (x : Option String) (d : String) : String :=
  match x with
  | some s => if s = "" then d else s
  | none => d

/-- The first truthy string of a JS `a || b || c || ''` chain. -/
def firstTruthy (l : List String) : String :=
  match l with
  | [] => ""
  | s :: rest => if s = "" then firstTruthy rest else s

/-- proxy line 283: `parsed.selector || null`. -/
def askSelector0 (parsed : AskParsed) : Option String :=
  match parsed.selector with
  | some s => if s = "" then none else some s
  | none => none

/-- proxy line 284: `Math.max(0, Math.min(1, Number(parsed.confidence || 0)))`. -/
def askConf0 (parsed : AskParsed) : JNum :=
  jsMax (.fin 0) (jsMin (.fin 1) (jsNumber (jsOr parsed.confidence (.jnum 0))))

/-- proxy line 288: `out.selector ? selectorMap.get(out.selector) : null`. -/
def askChosen (elements : List PageElement) (parsed : AskParsed) : Option PageElement :=
  match askSelector0 parsed with
  | some s => lookupSelector (allowedElements elements) s
  | none => none

/-- proxy lines 281-308: sanitize the parsed oracle reply against the elements
actually sent.  Steps: coerce and clamp the four fields; when the selector does
not resolve in the selector map, null it, cap confidence at 0.45 and replace
label and explanation with the no-validated-match message; otherwise prefer the
matched element's own label when non-empty; re-clamp confidence (a no-op for
the already clamped finite values, with NaN propagating through both guards);
truncate the explanation to 160 characters. -/
def askSanitize (elements : List PageElement) (parsed : AskParsed) : AskOut :=
  let out0 : AskOut :=
    { action_label := strOr parsed.action_label "Open the menu"
      selector := askSelector0 parsed
      confidence := askConf0 parsed
      explanation := strOr parsed.explanation "This seems relevant." }
  let out1 : AskOut :=
    match askChosen elements parsed with
    | none =>
      { action_label := "No validated element"
        selector := none
        confidence := jsMin out0.confidence (.fin (45 / 100))
        explanation := "Model response did not match provided elements." }
    | some el =>
      let label := jsTrim (firstTruthy [el.text, el.ariaLabel, el.name])
      { out0 with action_label := if label = "" then out0.action_label else label }
  let conf2 := if out1.confidence.ltQ 0 && out1.confidence.isFinite
               then JNum.fin 0 else out1.confidence
  let conf3 := if conf2.gtQ 1 then JNum.fin 1 else conf2
  { action_label := out1.action_label
    selector := out1.selector
    confidence := conf3
    explanation := if 160 < out1.explanation.length
      then String.mk (out1.explanation.data.take 157) ++ "..."
      else out1.explanation }

/-- proxy lines 273-278: the object assigned to `parsed` when an unparseable
reply contains no bracketed fragment. -/
def askFallbackParsed : AskParsed :=
  { action_label := some "Open the main menu"
    selector := none
    confidence := .jnum (4 / 10)
    explanation := some "Fallback: could not parse JSON cleanly." }

/-- proxy lines 268-279: the defensive parse; in the no-fragment case `parsed`
becomes the fallback object, while a fragment that itself fails to parse throws
out of the catch block (`none` here). -/
def askParse (jsonOf : String → Option AskParsed) (content : String) :
    Option AskParsed :=
  match parseDefensive jsonOf content with
  | .parsed p => some p
  | .noJson => some askFallbackParsed
  | .thrown => none

/-- proxy lines 235-314: the `/ask` response built from raw oracle content; an
exception escaping the parse block reaches the outer handler, which answers
HTTP 500 carrying the stringified error (payload text not modelled). -/
def askRespond (jsonOf : String → Option AskParsed) (elements : List PageElement)
    (content : String) : HttpResult AskOut :=
  match askParse jsonOf content with
  | some p => .ok (askSanitize elements p)
  | none => .err 500 "String(err)"

/-! ## Site hints (`src/server/index.js` lines 366-875) -/

/-- index.js lines 380-384. -/
def RELEVANT_PATH_TOKENS : List String :=
  ["settings", "account", "profile", "billing", "subscription", "subscriptions",
   "users", "security", "password", "invoices", "payment", "preferences",
   "admin", "dashboard", "manage", "edit", "update", "change"]

/-- index.js lines 386-394. -/
def GOAL_KEYWORDS_MAP : List (String × List String) :=
  [("email", ["settings", "account", "profile", "preferences"]),
   ("subscription", ["billing", "subscription", "subscriptions", "payment"]),
   ("invoice", ["billing", "invoices", "payment", "account"]),
   ("user", ["users", "admin", "manage", "team"]),
   ("password", ["security", "password", "account", "settings"]),
   ("billing", ["billing", "payment", "subscription", "account"]),
   ("cancel", ["subscription", "billing", "account", "manage"])]

/-- Goal text sanitized for the exact-match bonus:
`goal.toLowerCase().replace(/[^a-z0-9]/g, '')`. -/
def sanitizeGoal (goal : String) : String :=
  String.mk ((jsToLower goal).data.filter
    (fun c => decide (('a' ≤ c ∧ c ≤ 'z') ∨ ('0' ≤ c ∧ c ≤ '9'))))

/-- The number of slashes in a path stem:
`(pathStem.match(/\//g) || []).length`. -/
def pathDepth (pathStem : String) : ℕ := pathStem.data.countP (fun c => c == '/')

/-- index.js `scoreUrl` (lines 576-610).  The source computes a local
`lowerUrl` that is never read afterwards, so the `url` argument cannot
influence the result. -/
def scoreUrl (url : String) (goal : String) (pathStem : String) : ℚ :=
  let _lowerUrl := jsToLower url
  let lowerGoal := jsToLower goal
  let lowerPathStem := jsToLower pathStem
  let s1 : ℚ := RELEVANT_PATH_TOKENS.foldl
    (fun sc token => if strContains lowerPathStem token then sc + 3 / 10 else sc) 0
  let s2 := GOAL_KEYWORDS_MAP.foldl
    (fun sc p =>
      if strContains lowerGoal p.1 then
        p.2.foldl (fun sc2 token =>
          if strContains lowerPathStem token then sc2 + 4 / 10 else sc2) sc
      else sc) s1
  let s3 := s2 - (pathDepth pathStem : ℚ) * (5 / 100)
  let s4 := if lowerPathStem = "/" ++ sanitizeGoal goal then s3 + 5 / 10 else s3
  max 0 (min 1 s4)

/-- The number of relevant path tokens contained in the lowered stem (analysis
view of the first fold of `scoreUrl`). -/
def relCount (pathStem : String) : ℕ :=
  RELEVANT_PATH_TOKENS.countP (fun token => strContains (jsToLower pathStem) token)

/-- The number of goal-keyword hits (analysis view of the second fold of
`scoreUrl`): for each map entry whose key occurs in the lowered goal, the
number of its tokens contained in the lowered stem. -/
def goalTokenCount (goal pathStem : String) : ℕ :=
  (GOAL_KEYWORDS_MAP.map (fun p =>
    if strContains (jsToLower goal) p.1 then
      p.2.countP (fun token => strContains (jsToLower pathStem) token)
    else 0)).sum

/-- The exact-stem bonus condition of `scoreUrl`. -/
def exactFlag (goal pathStem : String) : Bool :=
  jsToLower pathStem == "/" ++ sanitizeGoal goal

/-- The score of `scoreUrl` before the final clamp onto [0, 1]. -/
def rawScore (goal pathStem : String) : ℚ :=
  3 / 10 * relCount pathStem + 4 / 10 * goalTokenCount goal pathStem
    - (pathDepth pathStem : ℚ) * (5 / 100)
    + (if exactFlag goal pathStem then 5 / 10 else 0)

/-- index.js line 366: `process.env.ENABLE_SITE_HINTS !== 'false'`. -/
def computeEnableSiteHints (env : Option String) : Bool := !(env == some "false")

/-- A scored site hint (path stem, human label, score). -/
structure SiteHint where
  url : String
  label : String
  score : ℚ
deriving DecidableEq

/-- The `meta` object of a site-hints reply. -/
structure SiteHintsMeta where
  source : String
  fetched_ms : ℤ
  ttl_s : ℤ
  cached : Option Bool
deriving DecidableEq

/-- The body of a site-hints reply (the echoed `origin` field of successful
replies is omitted). -/
structure SiteHintsBody where
  hints : List SiteHint
  meta : SiteHintsMeta
deriving DecidableEq

/-- index.js line 370. -/
def CACHE_TTL_MS : ℤ := 30 * 60 * 1000

/-- index.js `isCacheValid` (lines 563-565). -/
def isCacheValid (now timestamp : ℤ) : Bool := decide (now - timestamp < CACHE_TTL_MS)

/-- A cached site-hints result (index.js lines 846-850). -/
structure HintsCacheEntry where
  hints : List SiteHint
  meta : SiteHintsMeta
  timestamp : ℤ
deriving DecidableEq

/-- A request body for `/site-hints`; a missing body yields two absent
fields. -/
structure SiteHintsReq where
  origin : Option String
  goal : Option String
deriving DecidableEq

/-- index.js `/site-hints` (lines 809-875).  `validUrl` abstracts WHATWG
`new URL(origin)` succeeding; `fresh` abstracts the network work of
`getSiteHints` (robots, sitemap, crawl, scoring) on origin and goal.  Returns
the HTTP reply, the cache state after the request, and whether fetch work
ran. -/
def siteHintsEndpoint (enabled : Bool) (validUrl : String → Bool)
    (fresh : String → String → List SiteHint × SiteHintsMeta) (now : ℤ)
    (cache : JsMap HintsCacheEntry) (req : SiteHintsReq) :
    HttpResult SiteHintsBody × JsMap HintsCacheEntry × Bool :=
  if !enabled then
    (.ok { hints := []
           meta := { source := "disabled", fetched_ms := 0, ttl_s := 0, cached := none } },
     cache, false)
  else
    let origin := req.origin.getD ""
    let goal := req.goal.getD ""
    if origin = "" ∨ goal = "" then (.err 400 "Missing origin or goal", cache, false)
    else if !(validUrl origin) then (.err 400 "Invalid origin URL", cache, false)
    else
      let cacheKey := origin ++ "::" ++ jsToLower goal
      let fetchBranch : HttpResult SiteHintsBody × JsMap HintsCacheEntry × Bool :=
        let result := fresh origin goal
        let withNew := mapSet cache cacheKey
          { hints := result.1, meta := result.2, timestamp := now }
        let swept := withNew.filter (fun p => isCacheValid now p.2.timestamp)
        (.ok { hints := result.1, meta := result.2 }, swept, true)
      match mapGet cache cacheKey with
      | some ent =>
        if isCacheValid now ent.timestamp then
          (.ok { hints := ent.hints, meta := { ent.meta with cached := some true } },
           cache, false)
        else fetchBranch
      | none => fetchBranch

/-! ## Helper lemmas -/

theorem str_data_append (a b : String) : (a ++ b).data = a.data ++ b.data := by
  cases a; cases b; rfl

theorem jsToLower_append (a b : String) :
    jsToLower (a ++ b) = jsToLower a ++ jsToLower b := by
  apply String.ext
  rw [str_data_append (jsToLower a) (jsToLower b)]
  show ((a ++ b).data).map lowerAscii = a.data.map lowerAscii ++ b.data.map lowerAscii
  rw [str_data_append, List.map_append]

theorem jsToLower_space : jsToLower " " = " " := rfl

theorem startsWithChars_append_sep (k a b : List Char) (sp : Char) (hsp : sp ∉ k) :
    startsWithChars k (a ++ sp :: b) = startsWithChars k a := by
  induction a generalizing k with
  | nil =>
    cases k with
    | nil => rfl
    | cons c k2 =>
      have hc : (c == sp) = false := by
        simp only [beq_eq_false_iff_ne]
        intro h
        exact hsp (by rw [← h]; exact List.mem_cons_self c k2)
      simp [startsWithChars, hc]
  | cons x a2 ih =>
    cases k with
    | nil => rfl
    | cons c k2 =>
      have hsp2 : sp ∉ k2 := fun h => hsp (List.mem_cons_of_mem c h)
      simp only [List.cons_append, startsWithChars, List.append_eq]
      rw [ih k2 hsp2]

theorem occursIn_append_sep (k a b : List Char) (sp : Char) (hsp : sp ∉ k) :
    occursIn k (a ++ sp :: b) = (occursIn k a || occursIn k b) := by
  induction a with
  | nil =>
    cases k with
    | nil => simp [occursIn, startsWithChars]
    | cons c k2 =>
      have hc : (c == sp) = false := by
        simp only [beq_eq_false_iff_ne]
        intro h
        exact hsp (by rw [← h]; exact List.mem_cons_self c k2)
      simp [occursIn, startsWithChars, hc]
  | cons x a2 ih =>
    have hs := startsWithChars_append_sep k (x :: a2) b sp hsp
    simp only [List.cons_append] at hs ⊢
    simp only [occursIn]
    rw [ih, hs, Bool.or_assoc]

theorem strContains_append_space (x y k : String) (hsp : (' ' : Char) ∉ k.data) :
    strContains (x ++ " " ++ y) k = (strContains x k || strContains y k) := by
  unfold strContains
  have e : (x ++ " " ++ y).data = x.data ++ ' ' :: y.data := by
    rw [str_data_append, str_data_append]
    simp
  rw [e, occursIn_append_sep _ _ _ _ hsp]

theorem listAnyCongrMem {α : Type} (p q : α → Bool) (l : List α)
    (h : ∀ a ∈ l, p a = q a) : l.any p = l.any q := by
  induction l with
  | nil => rfl
  | cons x xs ih =>
    simp only [List.any_cons]
    rw [h x (List.mem_cons_self x xs), ih (fun a ha => h a (List.mem_cons_of_mem x ha))]

theorem listFindCongr {α : Type} (p q : α → Bool) (l : List α)
    (h : ∀ a, p a = q a) : l.find? p = l.find? q := by
  induction l with
  | nil => rfl
  | cons x xs ih =>
    simp only [List.find?]
    rw [h x, ih]

/-- Claim-side (spec-worded) version of the timeout keyword test for C3: some
keyword occurs in the text, the accessible name, or the aria-label,
case-insensitively — field by field rather than on the space-joined
concatenation the code builds. -/
def specKeywordHit (c : Compact) : Bool :=
  TIMEOUT_KEYWORDS.any (fun k =>
    strContains (jsToLower c.text) k || strContains (jsToLower c.accName) k ||
      strContains (jsToLower c.ariaLabel) k)

/-- The code predicate agrees with the claim-side predicate: no keyword
contains a space, so no match can straddle the joining spaces. -/
theorem timeoutKwMatch_eq_spec (c : Compact) : timeoutKwMatch c = specKeywordHit c := by
  unfold timeoutKwMatch specKeywordHit
  apply listAnyCongrMem
  intro k hk
  have hsp : (' ' : Char) ∉ k.data := by fin_cases hk <;> decide
  rw [jsToLower_append, jsToLower_append, jsToLower_append, jsToLower_append,
    jsToLower_space, strContains_append_space _ _ _ hsp, strContains_append_space _ _ _ hsp,
    Bool.or_assoc]

theorem insertScored_perm (x : Scored) (l : List Scored) :
    (insertScored x l).Perm (x :: l) := by
  induction l with
  | nil => exact List.Perm.refl _
  | cons y ys ih =>
    by_cases h : y.score > x.score
    · simp only [insertScored, if_pos h]
      exact (List.Perm.cons y ih).trans (List.Perm.swap x y ys)
    · simp only [insertScored, if_neg h]
      exact List.Perm.refl _

theorem sortScored_perm (l : List Scored) : (sortScored l).Perm l := by
  induction l with
  | nil => exact List.Perm.refl _
  | cons x xs ih =>
    exact (insertScored_perm x (sortScored xs)).trans (List.Perm.cons x ih)

theorem insertScored_pairwise (x : Scored) (l : List Scored)
    (h : l.Pairwise (fun a b => b.score ≤ a.score)) :
    (insertScored x l).Pairwise (fun a b => b.score ≤ a.score) := by
  induction l with
  | nil => simp [insertScored]
  | cons y ys ih =>
    rcases List.pairwise_cons.mp h with ⟨hy, hys⟩
    by_cases hgt : y.score > x.score
    · simp only [insertScored, if_pos hgt]
      refine List.pairwise_cons.mpr ⟨?_, ih hys⟩
      intro z hz
      rcases List.mem_cons.mp ((insertScored_perm x ys).mem_iff.mp hz) with rfl | hzys
      · exact le_of_lt hgt
      · exact hy z hzys
    · simp only [insertScored, if_neg hgt]
      push_neg at hgt
      refine List.pairwise_cons.mpr ⟨?_, h⟩
      intro z hz
      rcases List.mem_cons.mp hz with rfl | hzys
      · exact hgt
      · exact le_trans (hy z hzys) hgt

theorem sortScored_pairwise (l : List Scored) :
    (sortScored l).Pairwise (fun a b => b.score ≤ a.score) := by
  induction l with
  | nil => simp [sortScored]
  | cons x xs ih => exact insertScored_pairwise x (sortScored xs) ih

theorem insertScored_filter (x : Scored) (l : List Scored) (q : ℚ) :
    (insertScored x l).filter (fun s => decide (s.score = q))
      = if x.score = q then x :: l.filter (fun s => decide (s.score = q))
        else l.filter (fun s => decide (s.score = q)) := by
  induction l with
  | nil =>
    by_cases hx : x.score = q <;> simp [insertScored, List.filter_cons, hx]
  | cons y ys ih =>
    by_cases hgt : y.score > x.score
    · have he : insertScored x (y :: ys) = y :: insertScored x ys := by
        simp [insertScored, hgt]
      rw [he, List.filter_cons]
      by_cases hx : x.score = q
      · have hy : ¬ (y.score = q) := fun hyq => ne_of_gt hgt (hyq.trans hx.symm)
        simp [hy, ih, hx, List.filter_cons]
      · simp [ih, hx, List.filter_cons]
    · have he : insertScored x (y :: ys) = x :: y :: ys := by
        simp [insertScored, hgt]
      rw [he]
      by_cases hx : x.score = q <;> simp [List.filter_cons, hx]

theorem sortScored_filter (l : List Scored) (q : ℚ) :
    (sortScored l).filter (fun s => decide (s.score = q))
      = l.filter (fun s => decide (s.score = q)) := by
  induction l with
  | nil => rfl
  | cons x xs ih =>
    show (insertScored x (sortScored xs)).filter _ = _
    rw [insertScored_filter]
    by_cases hx : x.score = q <;> simp [List.filter_cons, hx, ih]

theorem sortScored_head_max (l : List Scored) (s : Scored) (t : List Scored)
    (h : sortScored l = s :: t) : ∀ z ∈ l, z.score ≤ s.score := by
  intro z hz
  have hz2 : z ∈ s :: t := by
    rw [← h]
    exact (sortScored_perm l).mem_iff.mpr hz
  rcases List.mem_cons.mp hz2 with rfl | hzt
  · exact le_refl _
  · have hp := sortScored_pairwise l
    rw [h] at hp
    exact (List.pairwise_cons.mp hp).1 z hzt

theorem firstDedup_cons (x : String) (xs : List String) :
    firstDedup (x :: xs) = x :: firstDedup (xs.filter (fun y => y != x)) := by
  rw [firstDedup]

theorem firstDedupDoubleAux :
    ∀ (n : ℕ) (xs ys : List String), xs.length ≤ n →
      firstDedup (xs ++ xs ++ ys) = firstDedup (xs ++ ys) := by
  intro n
  induction n with
  | zero =>
    intro xs ys h
    have hx : xs = [] := List.eq_nil_of_length_eq_zero (Nat.le_zero.mp h)
    subst hx
    rfl
  | succ n ih =>
    intro xs ys h
    cases xs with
    | nil => rfl
    | cons x xs2 =>
      have e1 : (x :: xs2) ++ (x :: xs2) ++ ys = x :: (xs2 ++ ((x :: xs2) ++ ys)) := by
        simp
      have e2 : (x :: xs2) ++ ys = x :: (xs2 ++ ys) := rfl
      rw [e1, e2, firstDedup_cons, firstDedup_cons]
      congr 1
      have e3 : List.filter (fun y => y != x) (x :: (xs2 ++ ys))
          = List.filter (fun y => y != x) (xs2 ++ ys) := by
        simp [List.filter_cons]
      rw [List.filter_append, e3, List.filter_append, ← List.append_assoc]
      exact ih _ _ (le_trans (List.length_filter_le _ _) (Nat.succ_le_succ_iff.mp h))

theorem firstDedup_double (xs ys : List String) :
    firstDedup (xs ++ xs ++ ys) = firstDedup (xs ++ ys) :=
  firstDedupDoubleAux xs.length xs ys le_rfl

theorem mapDelete_cons_self {α : Type} (e : String × α) (rest : List (String × α)) :
    mapDelete (e :: rest) e.1 = mapDelete rest e.1 := by
  simp [mapDelete, List.filter_cons]

theorem evictLoop_length {α : Type} :
    ∀ (fuel : ℕ) (m : JsMap (RankEntry α)),
      m.length - RANK_CACHE_MAX_ENTRIES ≤ fuel →
      (evictLoop fuel m).length ≤ RANK_CACHE_MAX_ENTRIES := by
  intro fuel
  induction fuel with
  | zero =>
    intro m h
    simpa [evictLoop] using Nat.sub_eq_zero_iff_le.mp (Nat.le_zero.mp h)
  | succ n ih =>
    intro m h
    by_cases hlen : RANK_CACHE_MAX_ENTRIES < m.length
    · cases m with
      | nil => exact absurd hlen (Nat.not_lt_zero _)
      | cons e rest =>
        have estep : evictLoop (n + 1) (e :: rest)
            = evictLoop n (mapDelete (e :: rest) e.1) := by
          simp only [evictLoop]
          rw [if_pos hlen]
        rw [estep]
        apply ih
        have hdel : (mapDelete (e :: rest) e.1).length ≤ rest.length := by
          rw [mapDelete_cons_self]
          exact List.length_filter_le _ _
        have hm : (e :: rest).length = rest.length + 1 := rfl
        rw [hm] at h
        omega
    · have estep : evictLoop (n + 1) m = m := by
        simp only [evictLoop]
        rw [if_neg hlen]
      rw [estep]
      omega

theorem evictLoop_subset {α : Type} :
    ∀ (fuel : ℕ) (m : JsMap (RankEntry α)) (x : String × RankEntry α),
      x ∈ evictLoop fuel m → x ∈ m := by
  intro fuel
  induction fuel with
  | zero =>
    intro m x hx
    simpa [evictLoop] using hx
  | succ n ih =>
    intro m x hx
    by_cases hlen : RANK_CACHE_MAX_ENTRIES < m.length
    · cases m with
      | nil => exact absurd hlen (Nat.not_lt_zero _)
      | cons e rest =>
        rw [show evictLoop (n + 1) (e :: rest) = evictLoop n (mapDelete (e :: rest) e.1)
            from by simp only [evictLoop]; rw [if_pos hlen]] at hx
        have hxdel := ih _ x hx
        rw [mapDelete_cons_self] at hxdel
        exact List.mem_cons_of_mem e (List.mem_filter.mp hxdel).1
    · rwa [show evictLoop (n + 1) m = m from by simp only [evictLoop]; rw [if_neg hlen]] at hx

theorem sweepExpired_bound {α : Type} (now : ℤ) (m : JsMap (RankEntry α)) :
    ∀ e ∈ sweepExpired now m, now - e.2.timestamp ≤ RANK_CACHE_TTL_MS :=
  fun _e he => of_decide_eq_true (List.mem_filter.mp he).2

theorem mapHas_delete_self {α : Type} (m : JsMap α) (k : String) :
    mapHas (mapDelete m k) k = false := by
  rw [Bool.eq_false_iff]
  intro hc
  rcases List.any_eq_true.mp hc with ⟨p, hp, hpk⟩
  have hne := (List.mem_filter.mp hp).2
  rw [bne_iff_ne] at hne
  exact hne (by simpa [beq_iff_eq] using hpk)

/-- Confidence values for which the JS numeric pipeline is fully modelled:
every modelled value except a non-empty (truthy) string. -/
def confSafe : JVal → Prop
  | .jstr s => s = ""
  | _ => True

theorem jsOr_num_zero (q : ℚ) : jsOr (.jnum q) (.jnum 0) = .jnum q := by
  by_cases hq : q = 0 <;> simp [jsOr, JVal.truthy, hq]

theorem clamp01_bounds (r : ℚ) : 0 ≤ max 0 (min 1 r) ∧ max 0 (min 1 r) ≤ 1 :=
  ⟨le_max_left _ _, max_le (by norm_num) (min_le_left _ _)⟩

theorem askConf0_clamped (parsed : AskParsed) (h : confSafe parsed.confidence) :
    ∃ q : ℚ, askConf0 parsed = .fin q ∧ 0 ≤ q ∧ q ≤ 1 := by
  unfold askConf0
  cases hc : parsed.confidence with
  | jnum q =>
    refine ⟨max 0 (min 1 q), ?_, (clamp01_bounds q).1, (clamp01_bounds q).2⟩
    rw [jsOr_num_zero]
    rfl
  | jnan =>
    exact ⟨max 0 (min 1 0), rfl, (clamp01_bounds 0).1, (clamp01_bounds 0).2⟩
  | jstr s =>
    rw [hc] at h
    have hs : s = "" := h
    subst hs
    exact ⟨max 0 (min 1 0), rfl, (clamp01_bounds 0).1, (clamp01_bounds 0).2⟩
  | jbool b =>
    cases b with
    | true =>
      exact ⟨max 0 (min 1 (if true then (1 : ℚ) else 0)), rfl,
        (clamp01_bounds _).1, (clamp01_bounds _).2⟩
    | false =>
      exact ⟨max 0 (min 1 0), rfl, (clamp01_bounds 0).1, (clamp01_bounds 0).2⟩
  | jnull =>
    exact ⟨max 0 (min 1 0), rfl, (clamp01_bounds 0).1, (clamp01_bounds 0).2⟩
  | jundef =>
    exact ⟨max 0 (min 1 0), rfl, (clamp01_bounds 0).1, (clamp01_bounds 0).2⟩

theorem lookupFoldAux (s : String) :
    ∀ (els : List PageElement) (acc : Option PageElement),
      (∀ el ∈ els, el.selector ≠ some s) →
      els.foldl (fun a el => if el.selector == some s then some el else a) acc = acc := by
  intro els
  induction els with
  | nil => intro acc _; rfl
  | cons e es ih =>
    intro acc h
    have he : (e.selector == some s) = false :=
      beq_eq_false_iff_ne.mpr (h e (List.mem_cons_self e es))
    rw [List.foldl_cons]
    have hstep : (if e.selector == some s then some e else acc) = acc := by simp [he]
    rw [hstep]
    exact ih acc (fun el hel => h el (List.mem_cons_of_mem e hel))

theorem lookupSelector_notfound (els : List PageElement) (s : String)
    (h : ∀ el ∈ els, el.selector ≠ some s) : lookupSelector els s = none :=
  lookupFoldAux s els none h

theorem askChosen_none (elements : List PageElement) (parsed : AskParsed)
    (s : String) (hsel : parsed.selector = some s)
    (hnot : ∀ el ∈ elements.take 200, el.selector ≠ some s) :
    askChosen elements parsed = none := by
  by_cases hs : s = ""
  · have e0 : askSelector0 parsed = none := by
      simp [askSelector0, hsel, hs]
    unfold askChosen
    rw [e0]
  · have e0 : askSelector0 parsed = some s := by
      simp only [askSelector0, hsel]
      rw [if_neg hs]
    unfold askChosen
    rw [e0]
    show lookupSelector (allowedElements elements) s = none
    apply lookupSelector_notfound
    intro el hel
    unfold allowedElements at hel
    exact hnot el (List.mem_filter.mp hel).1

theorem askSanitize_invalid_branch (elements : List PageElement) (parsed : AskParsed)
    (hch : askChosen elements parsed = none) (q0 : ℚ)
    (hq0 : askConf0 parsed = .fin q0) (h0 : 0 ≤ q0) :
    askSanitize elements parsed
      = { action_label := "No validated element"
          selector := none
          confidence := .fin (min q0 (45 / 100))
          explanation := "Model response did not match provided elements." } := by
  have hmin0 : (0 : ℚ) ≤ min q0 (45 / 100) := le_min h0 (by norm_num)
  have h1 : (JNum.fin (min q0 (45 / 100))).ltQ 0 = false := by
    simp only [JNum.ltQ, decide_eq_false_iff_not, not_lt]
    exact hmin0
  have h2 : (JNum.fin (min q0 (45 / 100))).gtQ 1 = false := by
    simp only [JNum.gtQ, decide_eq_false_iff_not, not_lt]
    exact le_trans (min_le_right _ _) (by norm_num)
  have h3 : ¬ (160 < ("Model response did not match provided elements." : String).length) := by
    decide
  simp [askSanitize, hch, hq0, jsMin, h1, h2, h3]

theorem foldl_if_add (c : ℚ) (p : String → Bool) :
    ∀ (l : List String) (a : ℚ),
      l.foldl (fun sc t => if p t then sc + c else sc) a = a + c * l.countP p := by
  intro l
  induction l with
  | nil => intro a; simp
  | cons x xs ih =>
    intro a
    rw [List.foldl_cons, List.countP_cons]
    by_cases hx : p x = true
    · simp only [hx, if_true]
      rw [ih]
      push_cast
      ring
    · have hxf : p x = false := by simpa using hx
      simp only [hxf]
      rw [ih]
      simp

theorem goalFold_eq (lowGoal lowStem : String) :
    ∀ (entries : List (String × List String)) (a : ℚ),
      entries.foldl (fun sc p =>
        if strContains lowGoal p.1 then
          p.2.foldl (fun sc2 token =>
            if strContains lowStem token then sc2 + 4 / 10 else sc2) sc
        else sc) a
      = a + 4 / 10 * (((entries.map (fun p =>
          if strContains lowGoal p.1 then
            p.2.countP (fun token => strContains lowStem token)
          else 0)).sum : ℕ) : ℚ) := by
  intro entries
  induction entries with
  | nil => intro a; simp
  | cons e es ih =>
    intro a
    rw [List.foldl_cons, List.map_cons, List.sum_cons]
    by_cases hg : strContains lowGoal e.1 = true
    · simp only [hg, if_true]
      rw [foldl_if_add, ih]
      push_cast
      ring
    · have hgf : strContains lowGoal e.1 = false := by simpa using hg
      simp only [hgf]
      rw [ih]
      simp

theorem scoreUrl_eq_raw (url goal pathStem : String) :
    scoreUrl url goal pathStem = max 0 (min 1 (rawScore goal pathStem)) := by
  simp only [scoreUrl]
  rw [foldl_if_add, goalFold_eq]
  unfold rawScore relCount goalTokenCount exactFlag pathDepth
  by_cases hx : jsToLower pathStem = "/" ++ sanitizeGoal goal
  · rw [if_pos hx, if_pos (by exact beq_iff_eq.mpr hx)]
    congr 1
    congr 1
    push_cast
    ring
  · rw [if_neg hx, if_neg (by simpa using hx)]
    congr 1
    congr 1
    push_cast
    ring

/-! ## Claims -/

/-- The fixed acceptance threshold on oracle confidence: the reconciliation in
popup.js treats `original.confidence <= 0.55` as low confidence. -/
def ACCEPTANCE_THRESHOLD : ℚ := 55 / 100

/-- A concrete compact candidate with id "a", used in closed statements. -/
def compactA : Compact :=
  { id := "a", tag := "a", role := "link", type := "", text := "Home", accName := "",
    ariaLabel := "", nameAttr := "", placeholder := "", labels := none, href := "",
    classes := [], visible := true, clickable := true, disabled := false,
    domPath := "", ancestorTextSample := "" }

/-- A concrete compact candidate with id "b". -/
def compactB : Compact := { compactA with id := "b", text := "My Billing page" }

/-- C1 (counterexample): the `/rank` endpoint of `src/server/index.js` returns
the oracle target id "zzz" to the caller although the submitted candidate set
has ids "a" and "b" only — the out-of-set identifier is carried as the target,
not nulled, and nothing is replaced. -/
theorem c1_rank_out_of_set_cex :
    rankOnParsed [compactA, compactB]
        (.parsed { elementId := some "zzz", reason := some "ok",
                   confidence := .jnum 90, alternates := none }) 100
      = .ok { elementId := some "zzz", reason := "ok", confidence := .fin 90,
              alternates := none, llm_ms := 100 }
    ∧ [compactA, compactB].map (fun c => c.id) = ["a", "b"]
    ∧ ("zzz" : String) ∉ ["a", "b"] :=
  ⟨rfl, rfl, by decide⟩

/-- C1 (amended): the proxy `/ask` endpoint of `src/proxy/server.js` enforces
the containment rule.  For every oracle reply whose selector is not among the
elements actually sent (the first 200), the sanitized Suggestion has a null
selector, the label "No validated element", the explanation "Model response did
not match provided elements.", and (for any well-modelled confidence value)
confidence capped at 0.45. -/
theorem c1_ask_out_of_set_sanitized (elements : List PageElement) (parsed : AskParsed)
    (s : String) (hsel : parsed.selector = some s)
    (hnot : ∀ el ∈ elements.take 200, el.selector ≠ some s)
    (hconf : confSafe parsed.confidence) :
    (askSanitize elements parsed).selector = none
    ∧ (askSanitize elements parsed).action_label = "No validated element"
    ∧ (askSanitize elements parsed).explanation
        = "Model response did not match provided elements."
    ∧ ∃ q : ℚ, (askSanitize elements parsed).confidence = .fin q ∧ q ≤ 45 / 100 := by
  obtain ⟨q0, hq0, h00, h01⟩ := askConf0_clamped parsed hconf
  have hch := askChosen_none elements parsed s hsel hnot
  rw [askSanitize_invalid_branch elements parsed hch q0 hq0 h00]
  exact ⟨rfl, rfl, rfl, min q0 (45 / 100), rfl, min_le_right _ _⟩

/-- A concrete page element with selector "#a", used in closed statements. -/
def pageElA : PageElement :=
  { text := "Settings", ariaLabel := "", name := "", selector := some "#a" }

/-- C1 witness: the amended statement applied at a concrete out-of-set
selector. -/
theorem c1_ask_out_of_set_sanitized_witness :
    (askSanitize [pageElA]
        { action_label := some "x", selector := some "#zz",
          confidence := .jnum (9 / 10), explanation := some "e" }).selector = none
    ∧ (askSanitize [pageElA]
        { action_label := some "x", selector := some "#zz",
          confidence := .jnum (9 / 10), explanation := some "e" }).action_label
        = "No validated element"
    ∧ (askSanitize [pageElA]
        { action_label := some "x", selector := some "#zz",
          confidence := .jnum (9 / 10), explanation := some "e" }).explanation
        = "Model response did not match provided elements."
    ∧ ∃ q : ℚ, (askSanitize [pageElA]
        { action_label := some "x", selector := some "#zz",
          confidence := .jnum (9 / 10), explanation := some "e" }).confidence = .fin q
        ∧ q ≤ 45 / 100 :=
  c1_ask_out_of_set_sanitized [pageElA] _ "#zz" rfl (by decide) trivial

/-- C2 (counterexample): the `/rank` endpoint emits the oracle confidence on
its declared 0-100 scale without clamping: a response with confidence 90 is
forwarded as 90, which is not in the closed interval [0, 1]. -/
theorem c2_rank_confidence_cex :
    rankOnParsed [compactA]
        (.parsed { elementId := some "a", reason := some "r",
                   confidence := .jnum 90, alternates := none }) 5
      = .ok { elementId := some "a", reason := "r", confidence := .fin 90,
              alternates := none, llm_ms := 5 }
    ∧ ¬ ((90 : ℚ) ≤ 1) :=
  ⟨rfl, by norm_num⟩

/-- C2 (amended): the proxy `/ask` endpoint does clamp: for every oracle reply
whose confidence is a number, boolean, null, absent, or empty string (every
modelled value except a truthy non-numeric string, which JS would turn into
NaN), the emitted confidence is a number in [0, 1] — including negative,
greater-than-1 and 0-100-scale numeric inputs. -/
theorem c2_ask_confidence_in_unit (elements : List PageElement) (parsed : AskParsed)
    (hconf : confSafe parsed.confidence) :
    ∃ q : ℚ, (askSanitize elements parsed).confidence = .fin q ∧ 0 ≤ q ∧ q ≤ 1 := by
  obtain ⟨q0, hq0, h00, h01⟩ := askConf0_clamped parsed hconf
  cases hch : askChosen elements parsed with
  | none =>
    rw [askSanitize_invalid_branch elements parsed hch q0 hq0 h00]
    exact ⟨min q0 (45 / 100), rfl, le_min h00 (by norm_num),
      le_trans (min_le_right _ _) (by norm_num)⟩
  | some el =>
    have h1 : (JNum.fin q0).ltQ 0 = false := by
      simp only [JNum.ltQ, decide_eq_false_iff_not, not_lt]
      exact h00
    have h2 : (JNum.fin q0).gtQ 1 = false := by
      simp only [JNum.gtQ, decide_eq_false_iff_not, not_lt]
      exact h01
    refine ⟨q0, ?_, h00, h01⟩
    simp [askSanitize, hch, hq0, h1, h2]

/-- C2 witness: the amended statement applied at the out-of-range numeric
confidence 250. -/
theorem c2_ask_confidence_in_unit_witness :
    ∃ q : ℚ, (askSanitize []
        { action_label := none, selector := none, confidence := .jnum 250,
          explanation := none }).confidence = .fin q ∧ 0 ≤ q ∧ q ≤ 1 :=
  c2_ask_confidence_in_unit [] _ trivial

/-- C3: on oracle timeout the `/rank` endpoint answers 200 with a fallback
payload, never a hard error; the fallback target is the first candidate whose
text, accessible name, or aria-label contains one of the keywords email,
subscription, billing, settings, account, password (case-insensitively), or
the first candidate when none match (null when the list is empty); confidence
is the fixed constant 35, below the acceptance threshold on the endpoint's
0-100 scale; the reason indicates a timeout fallback; and the timeout budget
is 8000 ms. -/
theorem c3_rank_timeout_fallback (cs : List Compact) (ms : ℤ) :
    rankOnCatch .timeout cs ms = .ok (rankTimeoutFallback cs ms)
    ∧ (rankTimeoutFallback cs ms).elementId
        = (match (match cs.find? specKeywordHit with
                  | some c => some c
                  | none => cs.head?) with
           | some c => if c.id = "" then none else some c.id
           | none => none)
    ∧ (rankTimeoutFallback cs ms).confidence = .fin 35
    ∧ (35 : ℚ) / 100 < ACCEPTANCE_THRESHOLD
    ∧ (rankTimeoutFallback cs ms).reason = "Timed out; offering best local guess"
    ∧ LLM_TIMEOUT_MS = 8000 := by
  refine ⟨rfl, ?_, rfl, by norm_num [ACCEPTANCE_THRESHOLD], rfl, rfl⟩
  simp only [rankTimeoutFallback]
  rw [listFindCongr _ _ cs timeoutKwMatch_eq_spec]

/-- C4 (counterexample): when the oracle text "hello" is not JSON and contains
no bracketed fragment, the `/rank` endpoint propagates a hard 502 error to the
caller instead of a fallback Suggestion. -/
theorem c4_rank_parse_hard_error_cex :
    rankRespondText jsParseFailsAll [compactA] "hello" 5 = .err 502 "Bad LLM response" :=
  rfl

/-- C4 (amended): the proxy `/ask` endpoint behaves as the claim says when the
raw text yields no bracketed fragment: the caller receives a 200 reply with a
generic low-confidence Suggestion (null selector, confidence 0.4, below the
acceptance threshold) rather than a parse error.  (The `/rank` endpoint
instead answers 502, and on both endpoints a bracketed fragment that itself
fails to parse escapes as a hard error.) -/
theorem c4_ask_parse_fallback (jsonOf : String → Option AskParsed)
    (elements : List PageElement) (content : String)
    (hraw : jsonOf content = none) (hfrag : braceMatch content = none) :
    askRespond jsonOf elements content = .ok (askSanitize elements askFallbackParsed)
    ∧ (askSanitize elements askFallbackParsed).selector = none
    ∧ (askSanitize elements askFallbackParsed).confidence = .fin (2 / 5)
    ∧ (2 / 5 : ℚ) < ACCEPTANCE_THRESHOLD := by
  have hch : askChosen elements askFallbackParsed = none := rfl
  have hq : askConf0 askFallbackParsed = .fin (4 / 10) := by
    with_unfolding_all rfl
  have hsan := askSanitize_invalid_branch elements askFallbackParsed hch (4 / 10) hq
    (by norm_num)
  refine ⟨?_, by rw [hsan], ?_, by norm_num [ACCEPTANCE_THRESHOLD]⟩
  · have hp : askParse jsonOf content = some askFallbackParsed := by
      unfold askParse parseDefensive
      rw [hraw, hfrag]
    unfold askRespond
    rw [hp]
  · rw [hsan]
    norm_num

/-- C4 witness: the amended statement applied to a concrete non-JSON text with
no brackets. -/
theorem c4_ask_parse_fallback_witness :
    askRespond jsParseFailsAll [] "not json" = .ok (askSanitize [] askFallbackParsed)
    ∧ (askSanitize [] askFallbackParsed).selector = none
    ∧ (askSanitize [] askFallbackParsed).confidence = .fin (2 / 5)
    ∧ (2 / 5 : ℚ) < ACCEPTANCE_THRESHOLD :=
  c4_ask_parse_fallback jsParseFailsAll [] "not json" rfl (by decide)

/-- C5: for every goal and candidate list, the scored list produced by
`preRank` is sorted in non-increasing score order; candidates of equal score
keep their input order (the sublist at any fixed score equals the corresponding
sublist of the unsorted scored list); and the `top` output is the 50-element
truncation of that sorted list. -/
theorem c5_preRank_sorted_stable (goal : String) (cs : List Candidate) :
    (preRank goal cs).scoredSorted.Pairwise (fun a b => b.score ≤ a.score)
    ∧ (∀ q : ℚ, (preRank goal cs).scoredSorted.filter (fun s => decide (s.score = q))
        = (scoredOf goal cs).filter (fun s => decide (s.score = q)))
    ∧ (preRank goal cs).top = ((preRank goal cs).scoredSorted.take 50).map (fun s => s.c) := by
  refine ⟨?_, ?_, rfl⟩
  · exact sortScored_pairwise (scoredOf goal cs)
  · intro q
    exact sortScored_filter (scoredOf goal cs) q

/-- A disabled candidate with a strong text match for the C6 counterexample. -/
def candDisabledStrong : Candidate :=
  { id := "d", accName := "change my email", text := "", labels := [],
    ariaLabel := "", ancestorTextSample := "", controlType := "button",
    clickable := true, disabled := true, boundsX := 0, boundsY := 0,
    boundsW := 100, boundsH := 10 }

/-- An enabled candidate whose only score is the area bonus (0.5). -/
def candEnabledWeak : Candidate :=
  { id := "e", accName := "", text := "", labels := [], ariaLabel := "",
    ancestorTextSample := "", controlType := "div", clickable := false,
    disabled := false, boundsX := 0, boundsY := 0, boundsW := 100, boundsH := 10 }

/-- C6 (counterexample): for goal "change my email" the disabled candidate
scores 7.5 even after the −3 penalty and outranks the enabled candidate, whose
score 0.5 is above zero — so the top-ranked candidate is disabled although an
enabled candidate with positive score exists. -/
theorem c6_disabled_top_cex :
    (preRank "change my email" [candDisabledStrong, candEnabledWeak]).bestLocal
      = some candDisabledStrong
    ∧ candDisabledStrong.disabled = true
    ∧ candEnabledWeak.disabled = false
    ∧ 0 < scoreCandidate (normalizeText "change my email") candEnabledWeak :=
  ⟨by with_unfolding_all decide, rfl, rfl, by with_unfolding_all decide⟩

/-- C6 (amended): the −3 disabled penalty does not dominate text matches, so
the guarantee requires strict dominance: whenever some enabled candidate's
score strictly exceeds the score of every disabled candidate, the top-ranked
candidate produced by `preRank` is not disabled. -/
theorem c6_top_not_disabled (goal : String) (cs : List Candidate) (e : Scored)
    (he : e ∈ scoredOf goal cs) (_hen : e.c.disabled = false)
    (hdom : ∀ d ∈ scoredOf goal cs, d.c.disabled = true → d.score < e.score) :
    ∀ b, (preRank goal cs).bestLocal = some b → b.disabled = false := by
  intro b hb
  have hb2 : (sortScored (scoredOf goal cs)).head?.map (fun s => s.c) = some b := hb
  cases hsort : sortScored (scoredOf goal cs) with
  | nil =>
    rw [hsort] at hb2
    simp at hb2
  | cons s t =>
    rw [hsort] at hb2
    simp at hb2
    cases hdis : b.disabled with
    | false => rfl
    | true =>
      exfalso
      have hsmem : s ∈ scoredOf goal cs :=
        (sortScored_perm (scoredOf goal cs)).mem_iff.mp
          (by rw [hsort]; exact List.mem_cons_self s t)
      have hslt : s.score < e.score := hdom s hsmem (by rw [hb2]; exact hdis)
      have hele : e.score ≤ s.score := sortScored_head_max _ s t hsort e he
      exact absurd hslt (not_lt.mpr hele)

/-- An enabled candidate matching the goal "settings", for the C6 witness. -/
def candEnabledStrong : Candidate :=
  { id := "s", accName := "settings", text := "settings", labels := [],
    ariaLabel := "", ancestorTextSample := "", controlType := "link",
    clickable := true, disabled := false, boundsX := 0, boundsY := 0,
    boundsW := 100, boundsH := 10 }

/-- C6 witness: the amended statement applied at a concrete list. -/
theorem c6_top_not_disabled_witness :
    (preRank "settings" [candEnabledStrong]).bestLocal = some candEnabledStrong
    ∧ candEnabledStrong.disabled = false :=
  ⟨by with_unfolding_all decide,
   c6_top_not_disabled "settings" [candEnabledStrong]
     { c := candEnabledStrong,
       score := scoreCandidate (normalizeText "settings") candEnabledStrong }
     (by with_unfolding_all decide) rfl (by with_unfolding_all decide)
     candEnabledStrong (by with_unfolding_all decide)⟩

/-- A compact candidate contributing the single signature token "alpha". -/
def sigCandA : Compact :=
  { id := "s1", tag := "", role := "", type := "", text := "", accName := "Alpha",
    ariaLabel := "", nameAttr := "", placeholder := "", labels := none, href := "",
    classes := [], visible := true, clickable := true, disabled := false,
    domPath := "", ancestorTextSample := "" }

/-- A compact candidate contributing the single signature token "beta". -/
def sigCandB : Compact := { sigCandA with id := "s2", accName := "Beta" }

/-- C7 (counterexample): the page signature is not order-independent — the two
permutations of the same two candidates hash "alpha|beta" and "beta|alpha"
respectively, giving different cache keys. -/
theorem c7_signature_order_cex :
    ([sigCandB, sigCandA] : List Compact).Perm [sigCandA, sigCandB]
    ∧ buildPageSignatureFromCandidates [sigCandA, sigCandB]
        ≠ buildPageSignatureFromCandidates [sigCandB, sigCandA] := by
  constructor
  · exact List.Perm.swap sigCandA sigCandB []
  · with_unfolding_all decide

/-- C7 (amended): the signature is determined by the sequence of first
occurrences of the candidates' normalized tokens — deduplication does hold, so
repeating a candidate leaves the key unchanged — but the order of first
occurrences matters, so permuted candidate lists can produce different keys. -/
theorem c7_signature_dedups_duplicates (c : Compact) (cs : List Compact)
    (h : cs.length ≤ 48) :
    buildPageSignatureFromCandidates (c :: c :: cs)
      = buildPageSignatureFromCandidates (c :: cs) := by
  unfold buildPageSignatureFromCandidates
  have h1 : (c :: c :: cs).take 50 = c :: c :: cs :=
    List.take_of_length_le (by simp; omega)
  have h2 : (c :: cs).take 50 = c :: cs :=
    List.take_of_length_le (by simp; omega)
  rw [h1, h2]
  simp only [List.map_cons, List.flatten_cons, List.filter_append]
  rw [← List.append_assoc, firstDedup_double]

/-- C7 witness: duplicate-candidate invariance at a concrete list. -/
theorem c7_signature_dedups_duplicates_witness :
    buildPageSignatureFromCandidates [sigCandA, sigCandA, sigCandB]
      = buildPageSignatureFromCandidates [sigCandA, sigCandB] :=
  c7_signature_dedups_duplicates sigCandA [sigCandB] (by decide)

/-- C8: the rank cache policy invariant holds under every operation: after any
`setRankCache` the cache has at most 500 entries and no entry older than the
60-second TTL; `getRankCache` never serves an expired entry; and a read of a
live entry re-inserts it at the back of insertion order (front-eviction LRU). -/
theorem c8_rank_cache_policy {α : Type} (now : ℤ) (key : String) (d : α)
    (m : JsMap (RankEntry α)) :
    (setRankCache now key d m).length ≤ RANK_CACHE_MAX_ENTRIES
    ∧ (∀ e ∈ setRankCache now key d m, now - e.2.timestamp ≤ RANK_CACHE_TTL_MS)
    ∧ (∀ d2, (getRankCache now key m).1 = some d2 →
        ∃ ent, mapGet m key = some ent ∧ ent.data = d2
          ∧ now - ent.timestamp ≤ RANK_CACHE_TTL_MS)
    ∧ (∀ ent, mapGet m key = some ent → now - ent.timestamp ≤ RANK_CACHE_TTL_MS →
        getRankCache now key m = (some ent.data, mapDelete m key ++ [(key, ent)])) := by
  refine ⟨?_, ?_, ?_, ?_⟩
  · exact evictLoop_length _ _ (Nat.sub_le _ _)
  · intro e he
    have he2 := evictLoop_subset _ _ e he
    exact sweepExpired_bound now _ e he2
  · intro d2 hd2
    cases hget : mapGet m key with
    | none => simp [getRankCache, hget] at hd2
    | some ent =>
      by_cases hexp : RANK_CACHE_TTL_MS < now - ent.timestamp
      · simp [getRankCache, hget, hexp] at hd2
      · refine ⟨ent, rfl, ?_, not_lt.mp hexp⟩
        simpa [getRankCache, hget, hexp] using hd2
  · intro ent hget hle
    simp only [getRankCache, hget]
    rw [if_neg (not_lt.mpr hle)]
    have hh : mapHas (mapDelete m key) key = false := mapHas_delete_self m key
    simp [mapSet, hh]

/-- C8 witness: the policy applied at a concrete two-entry cache. -/
theorem c8_rank_cache_policy_witness :
    (setRankCache 5 "c" (7 : ℕ) [("a", ⟨0, 1⟩), ("b", ⟨0, 2⟩)]).length
        ≤ RANK_CACHE_MAX_ENTRIES
    ∧ getRankCache 5 "a" ([("a", ⟨0, (1 : ℕ)⟩), ("b", ⟨0, 2⟩)] : JsMap (RankEntry ℕ))
        = (some 1,
           mapDelete ([("a", ⟨0, (1 : ℕ)⟩), ("b", ⟨0, 2⟩)] : JsMap (RankEntry ℕ)) "a"
             ++ [("a", ⟨0, 1⟩)]) :=
  ⟨(c8_rank_cache_policy 5 "c" (7 : ℕ) [("a", ⟨0, 1⟩), ("b", ⟨0, 2⟩)]).1,
   (c8_rank_cache_policy 5 "a" (0 : ℕ) [("a", ⟨0, 1⟩), ("b", ⟨0, 2⟩)]).2.2.2
     ⟨0, 1⟩ rfl (by decide)⟩

/-- C9 (counterexample): strict decrease in depth fails after clamping — the
otherwise-identical stems "/x/y/z/help" (depth 4) and "/help" (depth 1) both
clamp to score 0 for goal "find invoices", so the deeper path does not score
strictly lower. -/
theorem c9_depth_not_strict_cex :
    pathDepth "/x/y/z/help" = 4 ∧ pathDepth "/help" = 1
    ∧ relCount "/x/y/z/help" = relCount "/help"
    ∧ goalTokenCount "find invoices" "/x/y/z/help"
        = goalTokenCount "find invoices" "/help"
    ∧ exactFlag "find invoices" "/x/y/z/help" = exactFlag "find invoices" "/help"
    ∧ ¬ (scoreUrl "https://ex.com/x/y/z/help" "find invoices" "/x/y/z/help"
          < scoreUrl "https://ex.com/help" "find invoices" "/help") :=
  ⟨by decide, by decide, by with_unfolding_all decide, by with_unfolding_all decide,
   by with_unfolding_all decide, by with_unfolding_all decide⟩

/-- C9 (amended): `/billing/invoices` scores strictly higher than `/help` for
goal "find invoices"; and depth lowers the score by exactly 0.05 per extra
segment before the clamp — a path at depth 4 has raw score 0.15 below the
otherwise-identical path at depth 1, and its clamped score is lower or equal
(equality possible at the clamp bounds, as the counterexample shows). -/
theorem c9_scoreUrl_hints :
    scoreUrl "https://ex.com/billing/invoices" "find invoices" "/billing/invoices"
      > scoreUrl "https://ex.com/help" "find invoices" "/help"
    ∧ (∀ goal s1 s4 : String,
        relCount s1 = relCount s4 →
        goalTokenCount goal s1 = goalTokenCount goal s4 →
        exactFlag goal s1 = exactFlag goal s4 →
        pathDepth s1 = 1 → pathDepth s4 = 4 →
        rawScore goal s4 = rawScore goal s1 - 15 / 100
        ∧ ∀ u1 u4 : String, scoreUrl u4 goal s4 ≤ scoreUrl u1 goal s1) := by
  constructor
  · with_unfolding_all decide
  · intro goal s1 s4 hrel hgtc hex hd1 hd4
    have hraw : rawScore goal s4 = rawScore goal s1 - 15 / 100 := by
      unfold rawScore
      rw [← hrel, ← hgtc, ← hex, hd1, hd4]
      push_cast
      ring
    refine ⟨hraw, ?_⟩
    intro u1 u4
    rw [scoreUrl_eq_raw, scoreUrl_eq_raw, hraw]
    have h1 : rawScore goal s1 - 15 / 100 ≤ rawScore goal s1 := by linarith
    exact max_le_max le_rfl (min_le_min le_rfl h1)

/-- C9 witness: the amended depth statement applied at the concrete stems
"/billing" (depth 1) and "/x/y/z/billing" (depth 4). -/
theorem c9_scoreUrl_hints_witness :
    rawScore "find invoices" "/x/y/z/billing"
        = rawScore "find invoices" "/billing" - 15 / 100
    ∧ scoreUrl "u4" "find invoices" "/x/y/z/billing"
        ≤ scoreUrl "u1" "find invoices" "/billing" := by
  have h := c9_scoreUrl_hints.2 "find invoices" "/billing" "/x/y/z/billing"
    (by with_unfolding_all decide) (by with_unfolding_all decide)
    (by with_unfolding_all decide) (by decide) (by decide)
  exact ⟨h.1, h.2 "u1" "u4"⟩

/-- C10: with ENABLE_SITE_HINTS computed from the environment value "false",
every request to /site-hints — including a missing body, a missing goal, or an
origin that would not parse — immediately receives HTTP 200 with hints [] and
meta source "disabled", fetched_ms 0, ttl_s 0; the field checks, origin
validation, cache and all network fetches are bypassed (cache unchanged, no
fetch work runs). -/
theorem c10_site_hints_disabled (validUrl : String → Bool)
    (fresh : String → String → List SiteHint × SiteHintsMeta) (now : ℤ)
    (cache : JsMap HintsCacheEntry) (req : SiteHintsReq) :
    siteHintsEndpoint (computeEnableSiteHints (some "false")) validUrl fresh now cache req
      = (.ok { hints := []
               meta := { source := "disabled", fetched_ms := 0, ttl_s := 0,
                         cached := none } },
         cache, false) :=
  rfl
